import Mathlib

/-!
# SharpScript interpreter — shallow embedding

A functional embedding of the SharpScript tree-walking evaluator
(`src/interpreter.c` together with `ast.h`, `builtins/io.c`, `builtins/docs.c`,
`builtins/errors.c`).  Numbers are modelled by `ℚ` (the C code uses IEEE
doubles; every claim below only exercises exact small-integer arithmetic,
where the two agree).  Environments are mutable in C and shared by closures,
so they are modelled as a store of frames addressed by index; `Value`s are
immutable in the C code once constructed, so they are modelled structurally.
The C `longjmp`-based throw path is modelled by an explicit `thrown` result
channel, and possible non-termination (`while`) by a fuel parameter.
-/

namespace SharpScript

/-- Binary operator tags reaching `eval_binary_op` (TOKEN_ADD … TOKEN_OR). -/
inductive BinOp where
  | add | sub | mul | div | mod
  | eq | neq | lt | gt | lte | gte
  | land | lor
  deriving DecidableEq, Repr

/-- Unary operator tags reaching the AST_UNARY_OP case (TOKEN_NOT, TOKEN_SUB). -/
inductive UnOp where
  | lnot | neg
  deriving DecidableEq, Repr

/-- Operator tags the AST_ASSIGN case distinguishes (`node->data.assign.op`):
the five compound tokens, plain `=`, `&insert` and `const`. -/
inductive AssignOp where
  | plusAssign | minusAssign | mulAssign | divAssign | modAssign
  | plain | insert | constDecl
  deriving DecidableEq, Repr

/-- The ASTNode type (ast.h): one tagged variant per `AST_*` node kind that the
evaluator can receive.  `AST_PROGRAM` is never constructed by the parser and
is omitted; `AST_MAP` and `AST_CLASS` are constructed but have no case in
`eval_node` (they fall to the `default:` arm). -/
inductive ASTNode where
  | number (n : ℚ)
  | str (s : String)
  | boolean (b : Bool)
  | null
  | identifier (name : String)
  | binaryOp (op : BinOp) (left right : ASTNode)
  | unaryOp (op : UnOp) (operand : ASTNode)
  | assign (op : AssignOp) (name : String) (tyName : Option String) (value : ASTNode)
  | ifStmt (cond thenB : ASTNode) (elseB : Option ASTNode)
  | whileStmt (cond body : ASTNode)
  | forStmt (init cond inc : Option ASTNode) (body : ASTNode)
  | forIn (var : String) (coll body : ASTNode)
  | funcDecl (name : String) (params : List String) (defaults : List (Option ASTNode))
      (body : ASTNode)
  | lambda (params : List String) (body : ASTNode)
  | call (name : String) (args : List ASTNode)
  | returnStmt (value : Option ASTNode)
  | breakStmt
  | continueStmt
  | block (stmts : List ASTNode)
  | arrayLit (elems : List ASTNode)
  | mapLit (keys vals : List ASTNode)
  | indexExpr (object index : ASTNode)
  | namespaceDecl (name : String) (body : ASTNode)
  | enumDecl (name : String) (members : List String) (values : List ℚ)
  | classDecl (name : String) (base : Option String) (body : ASTNode)
  | matchStmt (expr : ASTNode) (cases bodies : List ASTNode) (dflt : Option ASTNode)
  | tryCatch (tryB : ASTNode) (errVar : Option String) (catchB finallyB : Option ASTNode)
  deriving Repr

/-- Runtime `Value` (interpreter.h).  `func` keeps the function's AST node and
the store index of its captured closure environment.  The interpreter-internal
control-flow sentinels `VAL_BREAK` / `VAL_CONTINUE` / `VAL_RETURN` are Value
variants exactly as in the C code.  The unused variants `VAL_OBJECT`,
`VAL_NAMESPACE`, `VAL_CLASS`, `VAL_ENUM` are never constructed by the
evaluator and are omitted. -/
inductive Value where
  | num (n : ℚ)
  | str (s : String)
  | boolean (b : Bool)
  | null
  | func (fn : ASTNode) (closure : Nat)
  | arr (elems : List Value)
  | map (entries : List (String × Value))
  | err (name message : String) (code : Int)
  | vbreak
  | vcontinue
  | vreturn (v : Value)
  deriving Repr

/-- C function type_name (interpreter.c): the inferred-type string recorded at
declaration time and used for annotation checks.  The sentinel variants fall
to the `default:` arm. -/
def typeName : Value → String
  | .num _ => "number"
  | .str _ => "string"
  | .boolean _ => "boolean"
  | .null => "null"
  | .func _ _ => "function"
  | .arr _ => "array"
  | .map _ => "map"
  | _ => "unknown"

/-- The inline switch inside the `system.type` builtin (eval_builtin).  It is
a distinct, smaller table than `typeName`: it has no `VAL_MAP` arm, so maps
(and errors, null, and every other variant) produce "null". -/
def builtinTypeName : Value → String
  | .num _ => "number"
  | .str _ => "string"
  | .boolean _ => "boolean"
  | .arr _ => "array"
  | .func _ _ => "function"
  | _ => "null"

/-- C function values_equal (interpreter.c), the equality used by `match`: mismatched
tags are unequal; numbers, strings and booleans compare by value; two nulls
compare EQUAL; arrays, maps and functions compare by pointer identity in C —
the only call site (AST_MATCH) compares two freshly allocated evaluation
results, so there the pointer comparison is always false, which is what the
catch-all arm returns. -/
def valuesEqual : Value → Value → Bool
  | .num a, .num b => a == b
  | .str a, .str b => a == b
  | .boolean a, .boolean b => a == b
  | .null, .null => true
  | _, _ => false

/-- C function value_is_truthy (interpreter.c). -/
def valueIsTruthy : Value → Bool
  | .null => false
  | .boolean b => b
  | .num n => n != 0
  | .str s => s.length > 0
  | _ => true

/-- Truncation toward zero, the effect of the C cast `(int)` on a double. -/
def qtrunc (q : ℚ) : Int := if q < 0 then ⌈q⌉ else ⌊q⌋

/-- C `fmod` on doubles: remainder with the sign of the dividend,
`a - trunc(a/b)*b`.  `fmod(a, 0)` is NaN in IEEE; no claim evaluates the
modulo at a zero divisor, we return 0 there. -/
def qfmod (a b : ℚ) : ℚ := if b = 0 then 0 else a - (qtrunc (a / b) : ℚ) * b

/-- The projection the evaluator performs when it reads `val->data.number`.
For a non-number operand the C code reads an uninitialized union member
(indeterminate bytes from `malloc`); we pick 0 as the junk value.  No claim
theorem depends on this arm. -/
def asNumber : Value → ℚ
  | .num n => n
  | _ => 0

/-- printf "%g" conversion used by string concatenation (`+`), `system.error`
and `file.write`.  Exact for integral values (the only numbers the claims
print); the 6-significant-digit scientific form %g produces for other doubles
is not modelled digit-for-digit. -/
def gFormat (q : ℚ) : String := if q.den = 1 then toString q.num else toString q

/-- The number arm of `value_print`: `%.0f` when `floor(x) == x`, `%g`
otherwise. -/
def numberDisplay (q : ℚ) : String := if q.den = 1 then toString q.num else gFormat q

mutual

/-- C function value_print (interpreter.c), rendered to the byte string it
writes: numbers via `numberDisplay`, errors as `<name: message>` (the C NULL
fallbacks for name/message cannot arise here since our strings are total),
arrays and maps recursively, functions as `<function>`, the sentinel variants
fall to the `default:` arm printing "null". -/
def valueDisplay : Value → String
  | .null => "null"
  | .num n => numberDisplay n
  | .str s => s
  | .err name msg _ => "<" ++ name ++ ": " ++ msg ++ ">"
  | .boolean b => if b then "true" else "false"
  | .arr elems => "[" ++ valueDisplayList elems ++ "]"
  | .map entries => "\x7b" ++ valueDisplayEntries entries ++ "\x7d"
  | .func _ _ => "<function>"
  | _ => "null"

/-- Comma-separated element rendering of `value_print` for arrays. -/
def valueDisplayList : List Value → String
  | [] => ""
  | [v] => valueDisplay v
  | v :: rest => valueDisplay v ++ ", " ++ valueDisplayList rest

/-- Comma-separated entry rendering of `value_print` for maps. -/
def valueDisplayEntries : List (String × Value) → String
  | [] => ""
  | [(k, v)] => "\"" ++ k ++ "\": " ++ valueDisplay v
  | (k, v) :: rest => "\"" ++ k ++ "\": " ++ valueDisplay v ++ ", " ++ valueDisplayEntries rest

end

/-- The operand-to-string conversion inside the `+` string-concatenation arm
of `eval_binary_op`: strings verbatim, numbers via %g, booleans, everything
else the literal "null". -/
def concatDisplay : Value → String
  | .str s => s
  | .num n => gFormat n
  | .boolean b => if b then "true" else "false"
  | _ => "null"

/-- The per-argument conversion inside the `system.error` builtin (it does
not use `value_print`): strings verbatim, numbers via %g, booleans, and
every other variant the literal "null". -/
def errDisplay : Value → String
  | .str s => s
  | .num n => gFormat n
  | .boolean b => if b then "true" else "false"
  | _ => "null"

/-- The pure combination part of `eval_binary_op` (interpreter.c), applied
after both operands have been evaluated (the C code evaluates `left` then
`right` unconditionally before dispatching on the operator, including for
`&&` and `||`).  Arithmetic reads `data.number` of both operands
(`asNumber`); `+` concatenates when either operand is a string; `==`/`!=`
compare only like primitive tags; relational operators are numeric;
`&&`/`||` combine truthiness into a fresh boolean; an unknown tag would fall
through to null. -/
def binop : BinOp → Value → Value → Value
  | .add, l, r =>
    if l matches .str _ then .str (concatDisplay l ++ concatDisplay r)
    else if r matches .str _ then .str (concatDisplay l ++ concatDisplay r)
    else .num (asNumber l + asNumber r)
  | .sub, l, r => .num (asNumber l - asNumber r)
  | .mul, l, r => .num (asNumber l * asNumber r)
  | .div, l, r => .num (asNumber l / asNumber r)
  | .mod, l, r => .num (qfmod (asNumber l) (asNumber r))
  | .eq, l, r =>
    .boolean (match l, r with
      | .num a, .num b => a == b
      | .str a, .str b => a == b
      | .boolean a, .boolean b => a == b
      | _, _ => false)
  | .neq, l, r =>
    .boolean (match l, r with
      | .num a, .num b => a != b
      | .str a, .str b => a != b
      | .boolean a, .boolean b => a != b
      | _, _ => true)
  | .lt, l, r => .boolean (decide (asNumber l < asNumber r))
  | .gt, l, r => .boolean (decide (asNumber r < asNumber l))
  | .lte, l, r => .boolean (decide (asNumber l ≤ asNumber r))
  | .gte, l, r => .boolean (decide (asNumber r ≤ asNumber l))
  | .land, l, r => .boolean (valueIsTruthy l && valueIsTruthy r)
  | .lor, l, r => .boolean (valueIsTruthy l || valueIsTruthy r)

/-- One slot of an `Environment` (interpreter.h): parallel entries of
`names[i]`, `values[i]`, `is_const[i]`, `types[i]` (NULL modelled as none). -/
structure Binding where
  name : String
  value : Value
  isConst : Bool
  ty : Option String
  deriving Repr

/-- An `Environment`: its ordered bindings plus the parent pointer, here a
store index. -/
structure Frame where
  bindings : List Binding
  parent : Option Nat
  deriving Repr

/-- One printf-level output event: `value_print` of a Value on stdout, other
stdout bytes (separators, newlines, prefixes, documentation), or stderr
bytes (diagnostics and `system.error`). -/
inductive OutEvent where
  | outValue (v : Value)
  | outText (s : String)
  | errText (s : String)
  deriving Repr

/-- The interpreter context plus the process-wide side tables and the outside
world the builtins touch: the frame store (frame 0 is the global
environment), the `current` frame index, the chronological output trace, the
`calc_mem` environment (a single parentless frame), the `history` sequence,
the remaining stdin lines, and the file system as an association list. -/
structure InterpState where
  frames : List Frame
  current : Nat
  trace : List OutEvent
  calcMem : List Binding
  history : List Value
  stdin : List String
  fs : List (String × String)
  deriving Repr

/-- State right after `interpreter_create`: one empty global frame. -/
def initState : InterpState :=
  { frames := [⟨[], none⟩], current := 0, trace := [], calcMem := [],
    history := [], stdin := [], fs := [] }

def outEmitV (st : InterpState) (v : Value) : InterpState :=
  { st with trace := st.trace ++ [.outValue v] }

def outEmit (st : InterpState) (s : String) : InterpState :=
  { st with trace := st.trace ++ [.outText s] }

def errEmit (st : InterpState) (s : String) : InterpState :=
  { st with trace := st.trace ++ [.errText s] }

/-- Linear scan of one frame's slots for a name (the `for` loops over
`env->count` in env_set / env_get / env_has / env_declare). -/
def frameFind (bs : List Binding) (name : String) : Option Binding :=
  bs.find? (fun b => b.name == name)

/-- C function env_set (interpreter.c) on the slot list of ONE environment:
if the name has a slot there, a const slot or a mismatching type annotation
is a diagnostic (returned as the second component) and no update; otherwise
the slot value is replaced.  If the name has no slot in this frame — env_set
never walks the parent chain — a fresh non-const untyped slot is appended. -/
def frameSet : List Binding → String → Value → List Binding × Option String
  | [], name, v => ([⟨name, v, false, none⟩], none)
  | b :: rest, name, v =>
    if b.name == name then
      if b.isConst then
        (b :: rest, some ("Cannot assign to const variable: " ++ name ++ "\n"))
      else
        match b.ty with
        | some t =>
          if t == typeName v || t == "unknown" then
            ({ b with value := v } :: rest, none)
          else
            (b :: rest, some ("Type mismatch for " ++ name ++ ": expected " ++ t
              ++ ", got " ++ typeName v ++ "\n"))
        | none => ({ b with value := v } :: rest, none)
    else
      let p := frameSet rest name v
      (b :: p.1, p.2)

/-- C function env_declare (interpreter.c): redeclaration in the same frame is
a diagnostic and a no-op; otherwise a slot is appended recording the value's
inferred type name and the const flag. -/
def frameDeclare (bs : List Binding) (name : String) (v : Value) (isC : Bool) :
    List Binding × Option String :=
  if (frameFind bs name).isSome then
    (bs, some ("Variable already declared: " ++ name ++ "\n"))
  else
    (bs ++ [⟨name, v, isC, some (typeName v)⟩], none)

/-- C function env_annotate / the scan inside `system.annotate`: overwrite the
type annotation on the first slot with this name in one frame; absent name is
a no-op. -/
def frameAnnotate : List Binding → String → String → List Binding
  | [], _, _ => []
  | b :: rest, name, t =>
    if b.name == name then { b with ty := some t } :: rest
    else b :: frameAnnotate rest name t

/-- Replace the binding list of frame `fid` via `f`, emitting `f`'s optional
diagnostic on stderr.  (Mutation of a malloc-ed Environment in C.) -/
def modifyFrame (st : InterpState) (fid : Nat)
    (f : List Binding → List Binding × Option String) : InterpState :=
  match st.frames[fid]? with
  | none => st
  | some fr =>
    let p := f fr.bindings
    let st2 := { st with frames := st.frames.set fid { fr with bindings := p.1 } }
    match p.2 with
    | some msg => errEmit st2 msg
    | none => st2

/-- env_set on the frame at index `fid`. -/
def envSetAt (st : InterpState) (fid : Nat) (name : String) (v : Value) : InterpState :=
  modifyFrame st fid (fun bs => frameSet bs name v)

/-- env_declare on the frame at index `fid`. -/
def envDeclareAt (st : InterpState) (fid : Nat) (name : String) (v : Value)
    (isC : Bool) : InterpState :=
  modifyFrame st fid (fun bs => frameDeclare bs name v isC)

/-- env_annotate on the frame at index `fid`. -/
def envAnnotateAt (st : InterpState) (fid : Nat) (name : String) (t : String) :
    InterpState :=
  modifyFrame st fid (fun bs => (frameAnnotate bs name t, none))

/-- C function env_get (interpreter.c): scan the frame, then recurse into the
parent.  The chain in any reachable store is strictly decreasing in index, so
a fuel of `frames.length` suffices; fuel exhaustion (impossible on reachable
stores) returns none like a missing name. -/
def envGetAux : Nat → List Frame → Nat → String → Option Value
  | 0, _, _, _ => none
  | fuel+1, frames, fid, name =>
    match frames[fid]? with
    | none => none
    | some fr =>
      match frameFind fr.bindings name with
      | some b => some b.value
      | none =>
        match fr.parent with
        | some p => envGetAux fuel frames p name
        | none => none

def envGet (st : InterpState) (fid : Nat) (name : String) : Option Value :=
  envGetAux st.frames.length st.frames fid name

/-- C function env_has walks exactly the chain env_get walks and reports
existence. -/
def envHas (st : InterpState) (fid : Nat) (name : String) : Bool :=
  (envGet st fid name).isSome

/-- C function env_create: allocate a frame with the given parent; the new
frame's store index is the old store length. -/
def envCreate (st : InterpState) (parent : Option Nat) : InterpState × Nat :=
  ({ st with frames := st.frames ++ [⟨[], parent⟩] }, st.frames.length)

/-- The libm oracle: the transcendental double functions the math builtins
call.  The claims never evaluate them; theorems about programs that avoid
them hold for every oracle. -/
structure LibM where
  sinD : ℚ → ℚ
  cosD : ℚ → ℚ
  tanD : ℚ → ℚ
  asinD : ℚ → ℚ
  acosD : ℚ → ℚ
  atanD : ℚ → ℚ
  log10D : ℚ → ℚ
  lnD : ℚ → ℚ
  expD : ℚ → ℚ
  sqrtD : ℚ → ℚ
  powD : ℚ → ℚ → ℚ

/-- A concrete trivial oracle used to close witness statements. -/
def libm0 : LibM :=
  ⟨fun _ => 0, fun _ => 0, fun _ => 0, fun _ => 0, fun _ => 0, fun _ => 0,
   fun _ => 0, fun _ => 0, fun _ => 0, fun _ => 0, fun _ _ => 0⟩

/-- Association-list file system read (io_read_file / read_file_simple). -/
def fsLookup (fs : List (String × String)) (path : String) : Option String :=
  match fs.find? (fun kv => kv.1 == path) with
  | some kv => some kv.2
  | none => none

/-- io_write_file: create-or-truncate then write the rendered data (strings
verbatim, numbers via %g, anything else writes nothing, leaving an empty
file). -/
def fsWrite (fs : List (String × String)) (path content : String) :
    List (String × String) :=
  (path, content) :: fs.filter (fun kv => kv.1 != path)

/-- C function docs_get (builtins/docs.c): topic-to-path table with the user
guide as the fallback for unknown topics, and the literal
"Documentation not found" when the file cannot be read. -/
def docsGet (fs : List (String × String)) (topic : String) : String :=
  let path :=
    if topic == "user" || topic == "help" then "../../docs/USER_GUIDE.md"
    else if topic == "dev" || topic == "developer" then "../../docs/DEVELOPER_GUIDE.md"
    else "../../docs/USER_GUIDE.md"
  match fsLookup fs path with
  | some content => content
  | none => "Documentation not found"

/-- Result of one `eval_node` call: a normal Value, a `longjmp` unwinding
with a thrown error (`throw_error`), or fuel exhaustion (the C code simply
fails to terminate). -/
inductive Res where
  | val (v : Value)
  | thrown (e : Value)
  | nofuel
  deriving Repr

/-- The explicit coercion `x->type == VAL_NUMBER ? x->data.number : 0.0` the
numeric builtins apply to their arguments (non-numbers become 0). -/
def numOrZero : Value → ℚ
  | .num n => n
  | _ => 0

/-- Numeric `ValueType` enum codes (interpreter.h), printed by the for-in
wrong-collection diagnostic (`got type %d`). -/
def valTypeCode : Value → Nat
  | .num _ => 0
  | .str _ => 1
  | .boolean _ => 2
  | .null => 3
  | .func _ _ => 4
  | .arr _ => 5
  | .map _ => 10
  | .vbreak => 11
  | .vcontinue => 12
  | .vreturn _ => 13
  | .err _ _ _ => 14

/-- The fixed conversion table of the `system.convert` builtin. -/
def convertTable (n : ℚ) (fu tu : String) : Option ℚ :=
  if fu == "m" && tu == "km" then some (n / 1000)
  else if fu == "km" && tu == "m" then some (n * 1000)
  else if fu == "m" && tu == "mi" then some (n / (1609.344 : ℚ))
  else if fu == "mi" && tu == "m" then some (n * (1609.344 : ℚ))
  else if fu == "kg" && tu == "lb" then some (n * (2.20462 : ℚ))
  else if fu == "lb" && tu == "kg" then some (n / (2.20462 : ℚ))
  else if fu == "C" && tu == "F" then some (n * 9 / 5 + 32)
  else if fu == "F" && tu == "C" then some ((n - 32) * 5 / 9)
  else if fu == "C" && tu == "K" then some (n + (273.15 : ℚ))
  else if fu == "K" && tu == "C" then some (n - (273.15 : ℚ))
  else none

/-- Pair each parameter with its default (the C `defaults[i]` array is
allocated with `param_count` entries; extra parameters pad with none). -/
def padZip : List String → List (Option ASTNode) → List (String × Option ASTNode)
  | [], _ => []
  | p :: ps, [] => (p, none) :: padZip ps []
  | p :: ps, d :: ds => (p, d) :: padZip ps ds

/-- The republication loop of AST_NAMESPACE: every binding of the temporary
namespace frame is env_declare-d into the target frame under the qualified
name, value deep-cloned (structural identity here), const flag preserved. -/
def republish (st : InterpState) (target : Nat) (ns : String) :
    List Binding → InterpState
  | [] => st
  | b :: rest =>
    republish (envDeclareAt st target (ns ++ "." ++ b.name) b.value b.isConst)
      target ns rest

/-- The member loop of AST_ENUM: each member is env_declare-d as a const
number under `Enum.Member`. -/
def enumBind (st : InterpState) (fid : Nat) (ename : String) :
    List (String × ℚ) → InterpState
  | [] => st
  | (m, v) :: rest =>
    enumBind (envDeclareAt st fid (ename ++ "." ++ m) (.num v) true) fid ename rest

/-- The exact name list of the AST_CALL builtin dispatch chain
(interpreter.c lines 1835-1863).  Note that "system.help" is NOT in this
list, although eval_builtin implements it. -/
def builtinNames : List String :=
  ["system.print", "system.input", "system.len", "system.type",
   "system.output", "system.error", "system.warning", "system.annotate",
   "system.throw", "system.sin", "system.cos", "system.tan", "system.asin",
   "system.acos", "system.atan", "system.log", "system.ln", "system.exp",
   "system.sqrt", "system.pow", "system.store", "system.recall",
   "system.memclear", "system.convert", "system.history.add",
   "system.history.get", "system.history.clear", "file.read", "file.write"]

/-- The compound-assignment read-combine step of AST_ASSIGN: read the old
value through the parent chain from the CURRENT frame; when both the old
value and the right-hand side are numbers the stored value becomes the
combination, otherwise the right-hand side is stored unchanged. -/
def compoundValue (st : InterpState) (name : String) (f : ℚ → ℚ → ℚ)
    (value : Value) : Value :=
  match envGet st st.current name, value with
  | some (.num old), .num vn => .num (f old vn)
  | _, _ => value

mutual

/-- C function eval_node (interpreter.c): the tree-walking evaluator.  `lm` is
the libm oracle, the Nat argument the fuel (the C code has none and may
diverge).  Results follow the C control flow: every case yields a Value; a
`system.throw` longjmp is the `thrown` channel, which does NOT restore
`current` (the C code only restores `interp->current` on the normal exit of
a call or namespace body). -/
def evalNode (lm : LibM) : Nat → InterpState → ASTNode → InterpState × Res
  | 0, st, _ => (st, .nofuel)
  | fuel+1, st, node =>
    match node with
    | .number n => (st, .val (.num n))
    | .str s => (st, .val (.str s))
    | .boolean b => (st, .val (.boolean b))
    | .null => (st, .val .null)
    | .identifier name =>
      match envGet st st.current name with
      | none => (errEmit st ("Undefined variable: " ++ name ++ "\n"), .val .null)
      | some v => (st, .val v)
    | .binaryOp op l r =>
      match evalNode lm fuel st l with
      | (st1, .val lv) =>
        match evalNode lm fuel st1 r with
        | (st2, .val rv) => (st2, .val (binop op lv rv))
        | other => other
      | other => other
    | .unaryOp op e =>
      match evalNode lm fuel st e with
      | (st1, .val v) =>
        match op with
        | .lnot => (st1, .val (.boolean (!valueIsTruthy v)))
        | .neg => (st1, .val (.num (-(asNumber v))))
      | other => other
    | .assign op name tyName valExpr =>
      match evalNode lm fuel st valExpr with
      | (st1, .val value0) =>
        match op with
        | .plusAssign =>
          (envSetAt st1 st1.current name
            (compoundValue st1 name (fun a b => a + b) value0), .val .null)
        | .minusAssign =>
          (envSetAt st1 st1.current name
            (compoundValue st1 name (fun a b => a - b) value0), .val .null)
        | .mulAssign =>
          (envSetAt st1 st1.current name
            (compoundValue st1 name (fun a b => a * b) value0), .val .null)
        | .divAssign =>
          (envSetAt st1 st1.current name
            (compoundValue st1 name (fun a b => a / b) value0), .val .null)
        | .modAssign =>
          (envSetAt st1 st1.current name
            (compoundValue st1 name qfmod value0), .val .null)
        | .plain =>
          if envHas st1 st1.current name then
            (envSetAt st1 st1.current name value0, .val .null)
          else
            (errEmit st1 ("Assignment to undeclared variable: " ++ name ++ "\n"),
              .val .null)
        | .insert =>
          match tyName with
          | some anno =>
            if typeName value0 == anno || anno == "unknown" then
              (envAnnotateAt (envDeclareAt st1 st1.current name value0 false)
                st1.current name anno, .val .null)
            else
              (errEmit st1 ("Type mismatch for " ++ name ++ ": expected " ++ anno
                ++ ", got " ++ typeName value0 ++ "\n"), .val .null)
          | none => (envDeclareAt st1 st1.current name value0 false, .val .null)
        | .constDecl =>
          match tyName with
          | some anno =>
            if typeName value0 == anno || anno == "unknown" then
              (envAnnotateAt (envDeclareAt st1 st1.current name value0 true)
                st1.current name anno, .val .null)
            else
              (errEmit st1 ("Type mismatch for " ++ name ++ ": expected " ++ anno
                ++ ", got " ++ typeName value0 ++ "\n"), .val .null)
          | none => (envDeclareAt st1 st1.current name value0 true, .val .null)
      | other => other
    | .ifStmt cond thenB elseB =>
      match evalNode lm fuel st cond with
      | (st1, .val cv) =>
        if valueIsTruthy cv then evalNode lm fuel st1 thenB
        else
          match elseB with
          | some e => evalNode lm fuel st1 e
          | none => (st1, .val .null)
      | other => other
    | .whileStmt cond body => evalWhile lm fuel st cond body .null
    | .forStmt init cond inc body =>
      match init with
      | some i =>
        match evalNode lm fuel st i with
        | (st1, .val _) => evalForLoop lm fuel st1 cond inc body .null
        | other => other
      | none => evalForLoop lm fuel st cond inc body .null
    | .forIn var collE body =>
      match evalNode lm fuel st collE with
      | (st1, .val (.arr elems)) => evalForInArr lm fuel st1 var elems body .null
      | (st1, .val (.map entries)) => evalForInMap lm fuel st1 var entries body .null
      | (st1, .val other) =>
        (errEmit st1 ("Error: for-in loop requires an array or map, got type "
          ++ toString (valTypeCode other) ++ "\n"), .val .null)
      | other => other
    | .funcDecl name params defaults body =>
      (envSetAt st st.current name
        (.func (.funcDecl name params defaults body) st.current), .val .null)
    | .lambda params body => (st, .val (.func (.lambda params body) st.current))
    | .call name args =>
      if builtinNames.contains name then evalBuiltin lm fuel st name args
      else
        match envGet st st.current name with
        | some (.func (.funcDecl _fname params defaults body) clo) =>
          match envCreate st (some clo) with
          | (st1, fid) =>
            match evalBindParams lm fuel st1 fid (padZip params defaults) args with
            | (st2, some r) => (st2, r)
            | (st2, none) =>
              let saved := st2.current
              match evalNode lm fuel { st2 with current := fid } body with
              | (st3, .val (.vreturn v)) => ({ st3 with current := saved }, .val v)
              | (st3, .val _) => ({ st3 with current := saved }, .val .null)
              | other => other         -- longjmp does not restore current
        | some (.func _ _) =>
          -- closure built from a lambda node: AST_CALL reads the type-punned
          -- `data.function` fields of a `data.lambda` node, undefined in C;
          -- unreachable in the claims.
          (st, .val .null)
        | _ => (errEmit st ("Undefined function: " ++ name ++ "\n"), .val .null)
    | .returnStmt v =>
      match v with
      | none => (st, .val (.vreturn .null))
      | some e =>
        match evalNode lm fuel st e with
        | (st1, .val x) => (st1, .val (.vreturn x))
        | other => other
    | .breakStmt => (st, .val .vbreak)
    | .continueStmt => (st, .val .vcontinue)
    | .block stmts => evalStmts lm fuel st stmts .null
    | .arrayLit elems => evalArrayElems lm fuel st elems []
    | .mapLit _ _ => (st, .val .null)    -- AST_MAP has no case: default arm
    | .indexExpr objE idxE =>
      match evalNode lm fuel st objE with
      | (st1, .val objV) =>
        match evalNode lm fuel st1 idxE with
        | (st2, .val idxV) =>
          match objV, idxV with
          | .arr elems, .num n =>
            let i := qtrunc n
            if 0 ≤ i then
              match elems[i.toNat]? with
              | some v => (st2, .val v)
              | none => (st2, .val .null)
            else (st2, .val .null)
          | _, _ => (st2, .val .null)
        | other => other
      | other => other
    | .namespaceDecl name body =>
      let saved := st.current
      match envCreate st (some saved) with
      | (st1, nsid) =>
        match evalNode lm fuel { st1 with current := nsid } body with
        | (st2, .val _) =>
          match st2.frames[nsid]? with
          | some nsFr =>
            ({ republish st2 saved name nsFr.bindings with current := saved },
              .val .null)
          | none => ({ st2 with current := saved }, .val .null)
        | other => other
    | .enumDecl name members values =>
      (enumBind st st.current name (members.zip values), .val .null)
    | .classDecl _ _ _ => (st, .val .null)  -- AST_CLASS has no case: default arm
    | .matchStmt e cases bodies dflt =>
      match evalNode lm fuel st e with
      | (st1, .val mv) => evalMatchCases lm fuel st1 mv cases bodies dflt
      | other => other
    | .tryCatch tryB errVar catchB finallyB =>
      -- setjmp is armed, the try body runs; a longjmp comes back here
      -- carrying the thrown error.  The C interpreter has a single jmp_buf:
      -- this equation models the defined-behavior executions in which the
      -- buffer still targets this try when a throw fires.
      match evalNode lm fuel st tryB with
      | (st1, r) => evalTryAfter lm fuel st1 errVar catchB finallyB .null r

/-- The AST_WHILE loop with its carried `result` variable. -/
def evalWhile (lm : LibM) :
    Nat → InterpState → ASTNode → ASTNode → Value → InterpState × Res
  | 0, st, _, _, _ => (st, .nofuel)
  | fuel+1, st, cond, body, result =>
    match evalNode lm fuel st cond with
    | (st1, .val cv) =>
      if valueIsTruthy cv then
        match evalNode lm fuel st1 body with
        | (st2, .val .vbreak) => (st2, .val .null)
        | (st2, .val .vcontinue) => evalWhile lm fuel st2 cond body .null
        | (st2, .val (.vreturn u)) => (st2, .val (.vreturn u))
        | (st2, .val r2) => evalWhile lm fuel st2 cond body r2
        | other => other
      else (st1, .val result)
    | other => other

/-- One AST_FOR iteration after the condition held: body, then sentinel
handling (break returns null at once; continue clears the result but still
runs the increment), then the increment, then back around. -/
def evalForBody (lm : LibM) :
    Nat → InterpState → Option ASTNode → Option ASTNode → ASTNode →
      InterpState × Res
  | 0, st, _, _, _ => (st, .nofuel)
  | fuel+1, st, cond, inc, body =>
    match evalNode lm fuel st body with
    | (st1, .val .vbreak) => (st1, .val .null)
    | (st1, .val (.vreturn u)) => (st1, .val (.vreturn u))
    | (st1, .val r2) =>
      let result2 := match r2 with
        | .vcontinue => Value.null
        | v => v
      match inc with
      | some ic =>
        match evalNode lm fuel st1 ic with
        | (st2, .val _) => evalForLoop lm fuel st2 cond inc body result2
        | other => other
      | none => evalForLoop lm fuel st1 cond inc body result2
    | other => other

/-- The AST_FOR loop head: test the (optional) condition, exiting with the
carried result when it is falsy. -/
def evalForLoop (lm : LibM) :
    Nat → InterpState → Option ASTNode → Option ASTNode → ASTNode → Value →
      InterpState × Res
  | 0, st, _, _, _, _ => (st, .nofuel)
  | fuel+1, st, cond, inc, body, result =>
    match cond with
    | some c =>
      match evalNode lm fuel st c with
      | (st1, .val cv) =>
        if valueIsTruthy cv then evalForBody lm fuel st1 cond inc body
        else (st1, .val result)
      | other => other
    | none => evalForBody lm fuel st cond inc body

/-- The AST_FOR_IN loop over an array: the loop variable is env_set in the
CURRENT frame to a deep clone of each element. -/
def evalForInArr (lm : LibM) :
    Nat → InterpState → String → List Value → ASTNode → Value →
      InterpState × Res
  | 0, st, _, _, _, _ => (st, .nofuel)
  | _+1, st, _, [], _, result => (st, .val result)
  | fuel+1, st, var, v :: rest, body, _ =>
    match evalNode lm fuel (envSetAt st st.current var v) body with
    | (st1, .val .vbreak) => (st1, .val .null)
    | (st1, .val .vcontinue) => evalForInArr lm fuel st1 var rest body .null
    | (st1, .val (.vreturn u)) => (st1, .val (.vreturn u))
    | (st1, .val r2) => evalForInArr lm fuel st1 var rest body r2
    | other => other

/-- The AST_FOR_IN loop over a map: the loop variable is bound to a fresh
two-entry map {"key": k, "value": clone v} per pair, in declaration order. -/
def evalForInMap (lm : LibM) :
    Nat → InterpState → String → List (String × Value) → ASTNode → Value →
      InterpState × Res
  | 0, st, _, _, _, _ => (st, .nofuel)
  | _+1, st, _, [], _, result => (st, .val result)
  | fuel+1, st, var, (k, v) :: rest, body, _ =>
    match evalNode lm fuel
        (envSetAt st st.current var (.map [("key", .str k), ("value", v)])) body with
    | (st1, .val .vbreak) => (st1, .val .null)
    | (st1, .val .vcontinue) => evalForInMap lm fuel st1 var rest body .null
    | (st1, .val (.vreturn u)) => (st1, .val (.vreturn u))
    | (st1, .val r2) => evalForInMap lm fuel st1 var rest body r2
    | other => other

/-- The AST_BLOCK statement loop with its carried `result` variable; the
three control-flow sentinels are returned immediately (and so PROPAGATE out
of the block, including the top-level one). -/
def evalStmts (lm : LibM) :
    Nat → InterpState → List ASTNode → Value → InterpState × Res
  | 0, st, _, _ => (st, .nofuel)
  | _+1, st, [], result => (st, .val result)
  | fuel+1, st, s :: rest, _ =>
    match evalNode lm fuel st s with
    | (st1, .val .vbreak) => (st1, .val .vbreak)
    | (st1, .val .vcontinue) => (st1, .val .vcontinue)
    | (st1, .val (.vreturn u)) => (st1, .val (.vreturn u))
    | (st1, .val v2) => evalStmts lm fuel st1 rest v2
    | other => other

/-- The AST_ARRAY element loop. -/
def evalArrayElems (lm : LibM) :
    Nat → InterpState → List ASTNode → List Value → InterpState × Res
  | 0, st, _, _ => (st, .nofuel)
  | _+1, st, [], acc => (st, .val (.arr acc))
  | fuel+1, st, e :: rest, acc =>
    match evalNode lm fuel st e with
    | (st1, .val v) => evalArrayElems lm fuel st1 rest (acc ++ [v])
    | other => other

/-- The AST_MATCH case loop: cases are evaluated and tested in source order
with `valuesEqual`; the first hit's body is evaluated and returned; then the
default body; otherwise null. -/
def evalMatchCases (lm : LibM) :
    Nat → InterpState → Value → List ASTNode → List ASTNode →
      Option ASTNode → InterpState × Res
  | 0, st, _, _, _, _ => (st, .nofuel)
  | fuel+1, st, mv, c :: cs, b :: bs, dflt =>
    match evalNode lm fuel st c with
    | (st1, .val cv) =>
      if valuesEqual mv cv then evalNode lm fuel st1 b
      else evalMatchCases lm fuel st1 mv cs bs dflt
    | other => other
  | fuel+1, st, _, _, _, dflt =>
    match dflt with
    | some d => evalNode lm fuel st d
    | none => (st, .val .null)

/-- The parameter-binding loop of AST_CALL: parameters are bound
positionally; argument AND default expressions are evaluated with
`interp->current` still the CALLER's frame (the swap to the callee frame
happens only after this loop); parameters with neither bind null. -/
def evalBindParams (lm : LibM) :
    Nat → InterpState → Nat → List (String × Option ASTNode) → List ASTNode →
      InterpState × Option Res
  | 0, st, _, _, _ => (st, some .nofuel)
  | _+1, st, _, [], _ => (st, none)
  | fuel+1, st, fid, (pname, dflt) :: ps, args =>
    match args with
    | a :: rest =>
      match evalNode lm fuel st a with
      | (st1, .val v) => evalBindParams lm fuel (envSetAt st1 fid pname v) fid ps rest
      | (st1, r) => (st1, some r)
    | [] =>
      match dflt with
      | some d =>
        match evalNode lm fuel st d with
        | (st1, .val v) => evalBindParams lm fuel (envSetAt st1 fid pname v) fid ps []
        | (st1, r) => (st1, some r)
      | none => evalBindParams lm fuel (envSetAt st fid pname .null) fid ps []

/-- What happens at the setjmp site after the try body produced `r`
(`pending` is the C `result` variable, null-modelled where the C one
dangles): a thrown error enters the catch clause when there is one, binding
the error via env_set in the current frame when a name was given; a throw
inside the catch body longjmps back into this same setjmp, re-entering the
catch with the new error. -/
def evalTryAfter (lm : LibM) :
    Nat → InterpState → Option String → Option ASTNode → Option ASTNode →
      Value → Res → InterpState × Res
  | 0, st, _, _, _, _, _ => (st, .nofuel)
  | fuel+1, st, errVar, catchB, finallyB, pending, r =>
    match r with
    | .nofuel => (st, .nofuel)
    | .val v => evalFinallyStage lm fuel st errVar catchB finallyB v
    | .thrown e =>
      match catchB with
      | some cb =>
        let st1 := match errVar with
          | some ev => envSetAt st st.current ev e
          | none => st
        match evalNode lm fuel st1 cb with
        | (st2, .thrown e2) =>
          evalTryAfter lm fuel st2 errVar catchB finallyB .null (.thrown e2)
        | (st2, .nofuel) => (st2, .nofuel)
        | (st2, .val cv) => evalFinallyStage lm fuel st2 errVar catchB finallyB cv
      | none => evalFinallyStage lm fuel st errVar catchB finallyB pending

/-- The finally stage: the finally body (when present) runs and its Value is
discarded; the pending try/catch Value is the statement's result.  A throw
during finally longjmps back into this try's setjmp. -/
def evalFinallyStage (lm : LibM) :
    Nat → InterpState → Option String → Option ASTNode → Option ASTNode →
      Value → InterpState × Res
  | 0, st, _, _, _, _ => (st, .nofuel)
  | fuel+1, st, errVar, catchB, finallyB, pending =>
    match finallyB with
    | none => (st, .val pending)
    | some fb =>
      match evalNode lm fuel st fb with
      | (st1, .val _) => (st1, .val pending)
      | (st1, .thrown e) =>
        evalTryAfter lm fuel st1 errVar catchB finallyB .null (.thrown e)
      | (st1, .nofuel) => (st1, .nofuel)

/-- The stdout printing loop shared by system.print / system.output /
system.warning: value_print each argument with single-space separators. -/
def evalPrintArgs (lm : LibM) :
    Nat → InterpState → List ASTNode → InterpState × Option Res
  | 0, st, _ => (st, some .nofuel)
  | _+1, st, [] => (st, none)
  | fuel+1, st, a :: rest =>
    match evalNode lm fuel st a with
    | (st1, .val v) =>
      let st2 := outEmitV st1 v
      let st3 := if rest.isEmpty then st2 else outEmit st2 (" ")
      evalPrintArgs lm fuel st3 rest
    | (st1, r) => (st1, some r)

/-- The stderr printing loop of system.error (its own per-type formatting,
not value_print). -/
def evalErrArgs (lm : LibM) :
    Nat → InterpState → List ASTNode → InterpState × Option Res
  | 0, st, _ => (st, some .nofuel)
  | _+1, st, [] => (st, none)
  | fuel+1, st, a :: rest =>
    match evalNode lm fuel st a with
    | (st1, .val v) =>
      let st2 := errEmit st1 (errDisplay v)
      let st3 := if rest.isEmpty then st2 else errEmit st2 (" ")
      evalErrArgs lm fuel st3 rest
    | (st1, r) => (st1, some r)

/-- A unary math builtin: evaluate the first argument only, coerce
non-numbers to 0, apply the libm oracle function. -/
def evalMathUnary (lm : LibM) :
    Nat → InterpState → List ASTNode → (ℚ → ℚ) → InterpState × Res
  | 0, st, _, _ => (st, .nofuel)
  | fuel+1, st, args, f =>
    match args with
    | a :: _ =>
      match evalNode lm fuel st a with
      | (st1, .val v) => (st1, .val (.num (f (numOrZero v))))
      | other => other
    | [] => (st, .val .null)

/-- C function eval_builtin (interpreter.c): the strcmp dispatch chain.  A
name+arity guard that fails falls through every later strcmp and reaches the
final `return value_create_null()`. -/
def evalBuiltin (lm : LibM) :
    Nat → InterpState → String → List ASTNode → InterpState × Res
  | 0, st, _, _ => (st, .nofuel)
  | fuel+1, st, name, args =>
    if name == "system.print" || name == "system.output" then
      match evalPrintArgs lm fuel st args with
      | (st1, none) => (outEmit st1 ("\n"), .val .null)
      | (st1, some r) => (st1, r)
    else if name == "system.help" then
      -- implemented here but unreachable from AST_CALL (name not dispatched);
      -- the C branch also uses the topic string after freeing it.
      match args with
      | [] => (outEmit st (docsGet st.fs "help" ++ "\n"), .val .null)
      | a :: _ =>
        match evalNode lm fuel st a with
        | (st1, .val (.str s)) => (outEmit st1 (docsGet st1.fs s ++ "\n"), .val .null)
        | (st1, .val _) => (outEmit st1 (docsGet st1.fs "help" ++ "\n"), .val .null)
        | other => other
    else if name == "system.error" then
      match evalErrArgs lm fuel (errEmit st ("Error: ")) args with
      | (st1, none) => (errEmit st1 ("\n"), .val .null)
      | (st1, some r) => (st1, r)
    else if name == "system.warning" then
      match evalPrintArgs lm fuel (outEmit st ("Warning: ")) args with
      | (st1, none) => (outEmit st1 ("\n"), .val .null)
      | (st1, some r) => (st1, r)
    else if name == "system.input" then
      match args with
      | a :: _ =>
        match evalNode lm fuel st a with
        | (st1, .val v) =>
          match (outEmitV st1 v).stdin with
          | line :: rest =>
            ({ outEmitV st1 v with stdin := rest }, .val (.str line))
          | [] => (outEmitV st1 v, .val (.str ""))
        | other => other
      | [] =>
        match st.stdin with
        | line :: rest => ({ st with stdin := rest }, .val (.str line))
        | [] => (st, .val (.str ""))
    else if name == "system.sin" && args.length ≥ 1 then
      evalMathUnary lm fuel st args lm.sinD
    else if name == "system.cos" && args.length ≥ 1 then
      evalMathUnary lm fuel st args lm.cosD
    else if name == "system.tan" && args.length ≥ 1 then
      evalMathUnary lm fuel st args lm.tanD
    else if name == "system.asin" && args.length ≥ 1 then
      evalMathUnary lm fuel st args lm.asinD
    else if name == "system.acos" && args.length ≥ 1 then
      evalMathUnary lm fuel st args lm.acosD
    else if name == "system.atan" && args.length ≥ 1 then
      evalMathUnary lm fuel st args lm.atanD
    else if name == "system.log" && args.length ≥ 1 then
      evalMathUnary lm fuel st args lm.log10D
    else if name == "system.ln" && args.length ≥ 1 then
      evalMathUnary lm fuel st args lm.lnD
    else if name == "system.exp" && args.length ≥ 1 then
      evalMathUnary lm fuel st args lm.expD
    else if name == "system.sqrt" && args.length ≥ 1 then
      evalMathUnary lm fuel st args lm.sqrtD
    else if name == "system.pow" && args.length ≥ 2 then
      match args with
      | a :: b :: _ =>
        match evalNode lm fuel st a with
        | (st1, .val av) =>
          match evalNode lm fuel st1 b with
          | (st2, .val bv) =>
            (st2, .val (.num (lm.powD (numOrZero av) (numOrZero bv))))
          | other => other
        | other => other
      | _ => (st, .val .null)
    else if name == "system.store" && args.length ≥ 2 then
      match args with
      | a :: b :: _ =>
        match evalNode lm fuel st a with
        | (st1, .val nv) =>
          match evalNode lm fuel st1 b with
          | (st2, .val vv) =>
            match nv with
            | .str s =>
              match frameSet st2.calcMem s vv with
              | (mem2, some msg) => (errEmit { st2 with calcMem := mem2 } msg, .val .null)
              | (mem2, none) => ({ st2 with calcMem := mem2 }, .val .null)
            | _ => (st2, .val .null)
          | other => other
        | other => other
      | _ => (st, .val .null)
    else if name == "system.recall" && args.length ≥ 1 then
      match args with
      | a :: _ =>
        match evalNode lm fuel st a with
        | (st1, .val (.str s)) =>
          match frameFind st1.calcMem s with
          | some b => (st1, .val b.value)
          | none => (st1, .val .null)
        | (st1, .val _) => (st1, .val .null)
        | other => other
      | _ => (st, .val .null)
    else if name == "system.memclear" then
      ({ st with calcMem := [] }, .val .null)
    else if name == "system.convert" && args.length ≥ 3 then
      match args with
      | a :: b :: c :: _ =>
        match evalNode lm fuel st a with
        | (st1, .val av) =>
          match evalNode lm fuel st1 b with
          | (st2, .val bv) =>
            match evalNode lm fuel st2 c with
            | (st3, .val cv) =>
              let fu := match bv with
                | .str s => s
                | _ => ""
              let tu := match cv with
                | .str s => s
                | _ => ""
              match convertTable (numOrZero av) fu tu with
              | some out => (st3, .val (.num out))
              | none => (st3, .val .null)
            | other => other
          | other => other
        | other => other
      | _ => (st, .val .null)
    else if name == "system.history.add" && args.length ≥ 1 then
      match args with
      | a :: _ =>
        match evalNode lm fuel st a with
        | (st1, .val v) => ({ st1 with history := st1.history ++ [v] }, .val .null)
        | other => other
      | _ => (st, .val .null)
    else if name == "system.history.get" then
      (st, .val (.arr st.history))
    else if name == "system.history.clear" then
      ({ st with history := [] }, .val .null)
    else if name == "system.len" && args.length > 0 then
      match args with
      | a :: _ =>
        match evalNode lm fuel st a with
        | (st1, .val (.str s)) => (st1, .val (.num s.utf8ByteSize))
        | (st1, .val (.arr elems)) => (st1, .val (.num elems.length))
        | (st1, .val _) => (st1, .val (.num 0))
        | other => other
      | _ => (st, .val .null)
    else if name == "system.type" && args.length > 0 then
      match args with
      | a :: _ =>
        match evalNode lm fuel st a with
        | (st1, .val v) => (st1, .val (.str (builtinTypeName v)))
        | other => other
      | _ => (st, .val .null)
    else if name == "system.annotate" && args.length ≥ 2 then
      match args with
      | a :: b :: _ =>
        match evalNode lm fuel st a with
        | (st1, .val nv) =>
          match evalNode lm fuel st1 b with
          | (st2, .val tv) =>
            match nv, tv with
            | .str s, .str t => (envAnnotateAt st2 st2.current s t, .val .null)
            | _, _ => (st2, .val .null)
          | other => other
        | other => other
      | _ => (st, .val .null)
    else if name == "system.throw" && args.length ≥ 1 then
      match args with
      | a :: rest =>
        match evalNode lm fuel st a with
        | (st1, .val nv) =>
          let nm := match nv with
            | .str s => s
            | _ => "Error"
          match rest with
          | b :: rest2 =>
            match evalNode lm fuel st1 b with
            | (st2, .val mv) =>
              let msg := match mv with
                | .str s => s
                | _ => ""
              match rest2 with
              | c :: _ =>
                match evalNode lm fuel st2 c with
                | (st3, .val cv) =>
                  let code : Int := match cv with
                    | .num n => qtrunc n
                    | _ => 0
                  (st3, .thrown (.err nm msg code))
                | other => other
              | [] => (st2, .thrown (.err nm msg 0))
            | other => other
          | [] => (st1, .thrown (.err nm "" 0))
        | other => other
      | _ => (st, .val .null)
    else if name == "file.read" && args.length ≥ 1 then
      match args with
      | a :: _ =>
        match evalNode lm fuel st a with
        | (st1, .val (.str s)) =>
          match fsLookup st1.fs s with
          | some content => (st1, .val (.str content))
          | none => (st1, .val .null)
        | (st1, .val _) => (st1, .val .null)
        | other => other
      | _ => (st, .val .null)
    else if name == "file.write" && args.length ≥ 2 then
      match args with
      | a :: b :: _ =>
        match evalNode lm fuel st a with
        | (st1, .val pv) =>
          match evalNode lm fuel st1 b with
          | (st2, .val dv) =>
            match pv with
            | .str s =>
              let content := match dv with
                | .str d => d
                | .num n => gFormat n
                | _ => ""
              ({ st2 with fs := fsWrite st2.fs s content }, .val .null)
            | _ => (st2, .val .null)
          | other => other
        | other => other
      | _ => (st, .val .null)
    else
      (st, .val .null)

end

/-- C function interpreter_eval: the public entry point, delegating to
eval_node. -/
def interpreterEval (lm : LibM) (fuel : Nat) (st : InterpState)
    (node : ASTNode) : InterpState × Res :=
  evalNode lm fuel st node

/-! ## Program fragments and auxiliary definitions used by the claim theorems -/

/-- A state with one global frame holding the given bindings. -/
def globalState (bs : List Binding) : InterpState :=
  { frames := [⟨bs, none⟩], current := 0, trace := [], calcMem := [],
    history := [], stdin := [], fs := [] }

/-- A state whose current frame (index 1) is a child of the global frame
(index 0), as inside a function body or namespace body. -/
def twoFrameState (pb cb : List Binding) : InterpState :=
  { frames := [⟨pb, none⟩, ⟨cb, some 0⟩], current := 1, trace := [],
    calcMem := [], history := [], stdin := [], fs := [] }

/-- The compound-assignment combination functions, per operator tag: the
evaluator applies them when both the old value and the right-hand side are
numbers.  Non-compound tags map to none. -/
def compoundCombine : AssignOp → Option (ℚ → ℚ → ℚ)
  | .plusAssign => some (fun a b => a + b)
  | .minusAssign => some (fun a b => a - b)
  | .mulAssign => some (fun a b => a * b)
  | .divAssign => some (fun a b => a / b)
  | .modAssign => some qfmod
  | _ => none

/-- Truthiness as the spec words it: null is false, a boolean is itself, a
number is true iff non-zero, a string is true iff non-empty, every other
Value is true.  (A second definition, following the spec text, to compare
with the code's `valueIsTruthy`.) -/
def specTruthy : Value → Bool
  | .null => false
  | .boolean b => b
  | .num n => decide (n ≠ 0)
  | .str s => decide (s ≠ "")
  | _ => true

/-- The equality rule of the `==` operator as the claim words it: numbers to
numbers by value, strings to strings by content, booleans to booleans, and
every other combination — including two nulls — never equal.  (A second
definition, following the spec text, to compare with the `match` statement's
actual `valuesEqual`.) -/
def specEqRule : Value → Value → Bool
  | .num a, .num b => a == b
  | .str a, .str b => a == b
  | .boolean a, .boolean b => a == b
  | _, _ => false

/-- The literal node evaluating to a given primitive value (used to state the
match-statement theorem over literal case lists). -/
def litNode : Value → ASTNode
  | .num n => .number n
  | .str s => .str s
  | .boolean b => .boolean b
  | _ => .null

/-- Primitive values representable as literals. -/
def isPrim : Value → Bool
  | .num _ => true
  | .str _ => true
  | .boolean _ => true
  | .null => true
  | _ => false

/-- First pair whose case value matches the scrutinee under `valuesEqual`,
with its position (the match statement tests cases in source order). -/
def firstMatch (mv : Value) : List (Value × ASTNode) → Option (Nat × ASTNode)
  | [] => none
  | (cv, b) :: rest =>
    if valuesEqual mv cv then some (0, b)
    else
      match firstMatch mv rest with
      | some (i, b2) => some (i + 1, b2)
      | none => none

/-- The element-selection rule asserted by claim C10 (the spec's words): an
array indexed by a number whose truncation-toward-zero lies in range yields
that element, every other combination yields null. -/
def indexSpecValue : Value → Value → Value
  | .arr elems, .num n =>
    if 0 ≤ qtrunc n then
      match elems[(qtrunc n).toNat]? with
      | some v => v
      | none => .null
    else .null
  | _, _ => .null

/-- Claim C1 / C2 closure scenario: the spec's `make`/`add` pair where the
inner function's default `y = k` names the enclosing function's parameter. -/
def progMake : ASTNode :=
  .funcDecl "make" ["k"] [none] (.block [
    .funcDecl "add" ["x", "y"] [none, some (.identifier "k")] (.block [
      .returnStmt (some (.binaryOp .add (.identifier "x") (.identifier "y")))]),
    .returnStmt (some (.identifier "add"))])

/-- The spec scenario plus a caller-frame binding `k = c`: `f(1)` evaluates
the default `y = k` in the caller's (global) frame, so it sees `c`, not the
callee-closure value 10. -/
def progDefaultCaller (c : ℚ) : ASTNode :=
  .block [
    progMake,
    .assign .insert "f" none (.call "make" [.number 10]),
    .assign .insert "k" none (.number c),
    .call "f" [.number 1]]

/-- The spec scenario's second call: `f(1, 2)` supplies both arguments, the
default is not consulted. -/
def progDefaultBoth : ASTNode :=
  .block [
    progMake,
    .assign .insert "f" none (.call "make" [.number 10]),
    .call "f" [.number 1, .number 2]]

/-- A parameter with neither an argument nor a default binds null:
`function g(a, b) { return b; } g(5)`. -/
def progMissingNull : ASTNode :=
  .block [
    .funcDecl "g" ["a", "b"] [none, none] (.block [
      .returnStmt (some (.identifier "b"))]),
    .call "g" [.number 5]]

/-- Claim C2 static-scoping scenario: `h` is created by `outer` with a
definition-site binding `z = A`; the caller binds its own `z = B` before
calling `h` — the body must see `A`. -/
def progStaticScope (A B : ℚ) : ASTNode :=
  .block [
    .funcDecl "outer" [] [] (.block [
      .assign .insert "z" none (.number A),
      .funcDecl "g" [] [] (.block [.returnStmt (some (.identifier "z"))]),
      .returnStmt (some (.identifier "g"))]),
    .assign .insert "h" none (.call "outer" []),
    .funcDecl "caller" [] [] (.block [
      .assign .insert "z" none (.number B),
      .returnStmt (some (.call "h" []))]),
    .call "caller" []]

/-- Claim C6, the spec's scenario:
`try { system.throw("E","m",7) } catch(e) { e }`. -/
def progThrowCatch : ASTNode :=
  .tryCatch (.block [.call "system.throw" [.str "E", .str "m", .number 7]])
    (some "e") (some (.block [.identifier "e"])) none

/-- Claim C7 counterexample scenario: a null scrutinee against a null case. -/
def progMatchNull : ASTNode :=
  .matchStmt .null [.null] [.number 1] (some (.number 2))

/-- A function value `f` with empty parameter list returning 42, closing
over the global frame (used to witness the call-consumes-Return lemma). -/
def fnRet42 : Value :=
  .func (.funcDecl "f" [] [] (.returnStmt (some (.number 42)))) 0

/-- Global state binding `f` to `fnRet42`. -/
def stF0 : InterpState := globalState [⟨"f", fnRet42, false, none⟩]

/-- The state after env_create of the call frame for `f`. -/
def stF1 : InterpState := { stF0 with frames := stF0.frames ++ [⟨[], some 0⟩] }

/-! ## Helper lemmas -/

/-- env_set on a frame that does not yet bind the name appends a fresh
non-const untyped slot and reports no diagnostic. -/
theorem frameSet_of_not_found : ∀ (bs : List Binding) (name : String) (v : Value),
    frameFind bs name = none →
    frameSet bs name v = (bs ++ [⟨name, v, false, none⟩], none) := by
  intro bs name v h
  induction bs with
  | nil => simp [frameSet]
  | cons b rest ih =>
    rw [frameFind, List.find?_cons] at h
    by_cases hb : (b.name == name) = true
    · simp [hb] at h
    · simp only [Bool.not_eq_true] at hb
      rw [hb] at h
      simp only [frameSet, hb, Bool.false_eq_true, if_false]
      rw [ih h]
      simp

/-- A literal node evaluates to its value at any positive fuel, leaving the
state untouched. -/
theorem litNode_eval (lm : LibM) (f : Nat) (st : InterpState) (v : Value)
    (h : isPrim v = true) :
    evalNode lm (f+1) st (litNode v) = (st, .val v) := by
  cases v <;> simp [isPrim] at h <;> simp [litNode, evalNode]

/-! ## Claim theorems -/

set_option maxHeartbeats 1000000 in
/-- C2: for every call of a user-defined function, the body is evaluated in
a fresh frame whose parent is the environment captured at the function's
definition site, not the caller's current frame: in `progStaticScope A B`,
`h` is defined inside `outer` where `z = A`; the caller rebinds `z = B` in
its own frame before calling `h`, yet the call yields `A` for every `A` and
`B` — static scoping. -/
theorem c2_static_scoping (A B : ℚ) :
    (interpreterEval libm0 40 initState (progStaticScope A B)).2 = .val (.num A) := by
  simp [progStaticScope, interpreterEval, evalNode, evalStmts, evalBindParams, builtinNames,
        envGet, envGetAux, initState, frameFind, envSetAt, envDeclareAt, envCreate,
        modifyFrame, frameSet, frameDeclare, typeName, padZip, errEmit, envAnnotateAt,
        frameAnnotate, envHas]

/-- C3 counterexample: a bare top-level `break` makes interpreter_eval
return the Break control-flow sentinel to its caller — the block case
propagates the sentinel and nothing at top level consumes it, refuting
"the Value returned by the top-level evaluator entry point is never one of
the control-flow sentinels". -/
theorem c3_counterexample :
    interpreterEval libm0 5 initState (.block [.breakStmt])
      = (initState, .val .vbreak) := by
  simp [interpreterEval, evalNode, evalStmts]

/-- C3 amended: the sentinels are consumed by the innermost enclosing
construct that can consume them — a while loop consumes Break (first
conjunct) and Continue (second), a function-call frame consumes Return,
unwrapping its payload (third), and also consumes a stray Break (fourth);
but a bare top-level `return` (like the bare `break` of the counterexample)
escapes interpreter_eval as a sentinel Value (last conjunct). -/
theorem c3_amended :
    (∀ (lm : LibM) (f : Nat) (st st1 st2 : InterpState) (cond body : ASTNode) (cv : Value),
      evalNode lm f st cond = (st1, .val cv) → valueIsTruthy cv = true →
      evalNode lm f st1 body = (st2, .val .vbreak) →
      evalNode lm (f+2) st (.whileStmt cond body) = (st2, .val .null))
    ∧ (∀ (lm : LibM) (f : Nat) (st st1 st2 st3 : InterpState) (cond body : ASTNode) (cv cv2 : Value),
      evalNode lm (f+1) st cond = (st1, .val cv) → valueIsTruthy cv = true →
      evalNode lm (f+1) st1 body = (st2, .val .vcontinue) →
      evalNode lm f st2 cond = (st3, .val cv2) → valueIsTruthy cv2 = false →
      evalNode lm (f+3) st (.whileStmt cond body) = (st3, .val .null))
    ∧ (∀ (lm : LibM) (f : Nat) (st st1 st2 st3 : InterpState) (fid : Nat) (name fn : String)
        (args : List ASTNode) (params : List String) (defaults : List (Option ASTNode))
        (body : ASTNode) (clo : Nat) (v : Value),
      name ∉ builtinNames →
      envGet st st.current name = some (.func (.funcDecl fn params defaults body) clo) →
      envCreate st (some clo) = (st1, fid) →
      evalBindParams lm f st1 fid (padZip params defaults) args = (st2, none) →
      evalNode lm f { st2 with current := fid } body = (st3, .val (.vreturn v)) →
      evalNode lm (f+1) st (.call name args) = ({ st3 with current := st2.current }, .val v))
    ∧ (∀ (lm : LibM) (f : Nat) (st st1 st2 st3 : InterpState) (fid : Nat) (name fn : String)
        (args : List ASTNode) (params : List String) (defaults : List (Option ASTNode))
        (body : ASTNode) (clo : Nat),
      name ∉ builtinNames →
      envGet st st.current name = some (.func (.funcDecl fn params defaults body) clo) →
      envCreate st (some clo) = (st1, fid) →
      evalBindParams lm f st1 fid (padZip params defaults) args = (st2, none) →
      evalNode lm f { st2 with current := fid } body = (st3, .val .vbreak) →
      evalNode lm (f+1) st (.call name args) = ({ st3 with current := st2.current }, .val .null))
    ∧ interpreterEval libm0 5 initState (.block [.returnStmt none])
        = (initState, .val (.vreturn .null)) := by
  refine ⟨?_, ?_, ?_, ?_, ?_⟩
  · intro lm f st st1 st2 cond body cv h1 h2 h3
    show evalWhile lm (f+1) st cond body .null = (st2, .val .null)
    simp only [evalWhile, h1, h2, h3]
    simp
  · intro lm f st st1 st2 st3 cond body cv cv2 h1 h2 h3 h4 h5
    show evalWhile lm (f+2) st cond body .null = (st3, .val .null)
    simp only [evalWhile, h1, h2, h3, h4, h5, if_true]
    simp
  · intro lm f st st1 st2 st3 fid name fn args params defaults body clo v hb hg hc hbind hbody
    simp only [evalNode, hg, hc, hbind, hbody]
    rw [if_neg (by simp [hb])]
  · intro lm f st st1 st2 st3 fid name fn args params defaults body clo hb hg hc hbind hbody
    simp only [evalNode, hg, hc, hbind, hbody]
    rw [if_neg (by simp [hb])]
  · simp [interpreterEval, evalNode, evalStmts]

/-- C3 amended, witness: concrete instances — `while (true) break` yields
null (the loop consumed the sentinel), and calling a function whose body is
`return 42` yields 42 (the call frame consumed the Return sentinel). -/
theorem c3_amended_witness :
    evalNode libm0 3 initState (.whileStmt (.boolean true) .breakStmt)
      = (initState, .val .null)
    ∧ evalNode libm0 6 stF0 (.call "f" [])
      = ({ { stF1 with current := 1 } with current := stF0.current }, .val (.num 42)) := by
  constructor
  · exact c3_amended.1 libm0 1 initState initState initState (.boolean true) .breakStmt
      (.boolean true) (by simp [evalNode]) (by simp [valueIsTruthy]) (by simp [evalNode])
  · exact c3_amended.2.2.1 libm0 5 stF0 stF1 stF1 { stF1 with current := 1 } 1 "f" "f"
      [] [] [] (.returnStmt (some (.number 42))) 0 (.num 42)
      (by simp [builtinNames])
      (by simp [envGet, envGetAux, stF0, globalState, frameFind, fnRet42])
      (by simp [envCreate, stF1, stF0, globalState])
      (by simp [evalBindParams, padZip])
      (by simp [evalNode])

/-- C5: the claim says every `system.help(...)` call is dispatched as a
built-in and prints documentation; in the code the AST_CALL dispatch list
omits "system.help" (first conjunct), so the call takes the user-function
path, prints "Undefined function: system.help" to stderr and yields null
(second conjunct) — even though eval_builtin fully implements the help
branch, which would print the documentation (third conjunct, at an empty
file system it prints the literal "Documentation not found"), and docs_get
maps topics exactly as the spec describes (remaining conjuncts). -/
theorem c5_help_never_dispatched :
    builtinNames.contains "system.help" = false
    ∧ interpreterEval libm0 5 initState (.call "system.help" [])
        = (errEmit initState ("Undefined function: system.help\n"), .val .null)
    ∧ evalBuiltin libm0 5 initState "system.help" []
        = (outEmit initState ("Documentation not found\n"), .val .null)
    ∧ (∀ ug dg : String,
        (docsGet [("../../docs/USER_GUIDE.md", ug), ("../../docs/DEVELOPER_GUIDE.md", dg)] "user" = ug
        ∧ docsGet [("../../docs/USER_GUIDE.md", ug), ("../../docs/DEVELOPER_GUIDE.md", dg)] "help" = ug
        ∧ docsGet [("../../docs/USER_GUIDE.md", ug), ("../../docs/DEVELOPER_GUIDE.md", dg)] "dev" = dg
        ∧ docsGet [("../../docs/USER_GUIDE.md", ug), ("../../docs/DEVELOPER_GUIDE.md", dg)] "developer" = dg
        ∧ docsGet [("../../docs/USER_GUIDE.md", ug), ("../../docs/DEVELOPER_GUIDE.md", dg)] "nosuchtopic" = ug))
    ∧ docsGet [] "user" = "Documentation not found" := by
  refine ⟨by simp [builtinNames], ?_, ?_, ?_, by simp [docsGet, fsLookup]⟩
  · simp [interpreterEval, evalNode, builtinNames, envGet, envGetAux, initState, frameFind]
  · simp [evalBuiltin, docsGet, fsLookup, initState]
  · intro ug dg
    refine ⟨?_, ?_, ?_, ?_, ?_⟩ <;> simp [docsGet, fsLookup]

/-- C2 witness: the static-scoping scenario at concrete values 7 and 9. -/
theorem c2_static_scoping_witness :
    (interpreterEval libm0 40 initState (progStaticScope 7 9)).2 = .val (.num 7) :=
  c2_static_scoping 7 9

set_option maxHeartbeats 1000000 in
/-- C1 counterexample: the claim says a missing trailing argument with a
declared default is bound by evaluating the default in the CALLEE's frame
(where the closure binds `k = 10`, so `f(1)` would be `11`).  In
`progDefaultCaller 100` the caller's frame binds `k = 100`, and `f(1)`
evaluates to `101`: the default `y = k` was evaluated in the caller's frame,
not the callee's, and the result is not the claimed `11`. -/
theorem c1_counterexample :
    (interpreterEval libm0 30 initState (progDefaultCaller 100)).2 = .val (.num 101)
    ∧ ((101 : ℚ) ≠ 11) := by
  constructor
  · simp [progDefaultCaller, progMake, interpreterEval, evalNode, evalStmts, evalBindParams,
          builtinNames, envGet, envGetAux, initState, frameFind, envSetAt, envDeclareAt,
          envCreate, modifyFrame, frameSet, frameDeclare, typeName, padZip, errEmit,
          envAnnotateAt, frameAnnotate, envHas, binop, asNumber]
    norm_num
  · norm_num

set_option maxHeartbeats 2000000 in
/-- C1 amended: missing trailing arguments fall back to declared defaults,
but the default expressions are evaluated in the CALLER's frame at call
time (first conjunct: for every caller-frame binding `k = c`, `f(1)` is
`1 + c`, not the callee-closure `11`); supplied arguments suppress the
default (`f(1,2)` is `3`, second conjunct); parameters with neither an
argument nor a default bind null (third conjunct). -/
theorem c1_amended :
    (∀ c : ℚ,
      (interpreterEval libm0 30 initState (progDefaultCaller c)).2 = .val (.num (1 + c)))
    ∧ (interpreterEval libm0 30 initState progDefaultBoth).2 = .val (.num 3)
    ∧ (interpreterEval libm0 30 initState progMissingNull).2 = .val .null := by
  refine ⟨?_, ?_, ?_⟩
  · intro c
    simp [progDefaultCaller, progMake, interpreterEval, evalNode, evalStmts, evalBindParams,
          builtinNames, envGet, envGetAux, initState, frameFind, envSetAt, envDeclareAt,
          envCreate, modifyFrame, frameSet, frameDeclare, typeName, padZip, errEmit,
          envAnnotateAt, frameAnnotate, envHas, binop, asNumber]
  · simp [progDefaultBoth, progMake, interpreterEval, evalNode, evalStmts, evalBindParams,
          builtinNames, envGet, envGetAux, initState, frameFind, envSetAt, envDeclareAt,
          envCreate, modifyFrame, frameSet, frameDeclare, typeName, padZip, errEmit,
          envAnnotateAt, frameAnnotate, envHas, binop, asNumber]
    norm_num
  · simp [progMissingNull, interpreterEval, evalNode, evalStmts, evalBindParams,
          builtinNames, envGet, envGetAux, initState, frameFind, envSetAt, envDeclareAt,
          envCreate, modifyFrame, frameSet, frameDeclare, typeName, padZip, errEmit,
          envAnnotateAt, frameAnnotate, envHas, binop, asNumber]

/-- C4 counterexample: with `x` bound only in the parent frame (to 1) and
the current frame empty, `x += 2` leaves the parent slot at 1 and creates a
NEW binding `x = 3` in the current frame — the claim asserted the parent
slot would hold the combined value and no new binding would be created. -/
theorem c4_counterexample :
    interpreterEval libm0 5 (twoFrameState [⟨"x", .num 1, false, none⟩] [])
        (.assign .plusAssign "x" none (.number 2))
      = (twoFrameState [⟨"x", .num 1, false, none⟩] [⟨"x", .num 3, false, none⟩],
         .val .null)
    ∧ Value.num 1 ≠ Value.num 3 := by
  constructor
  · simp [interpreterEval, evalNode, twoFrameState, envSetAt, modifyFrame, frameSet,
          compoundValue, envGet, envGetAux, frameFind, errEmit, asNumber]
    norm_num
  · simp

/-- C4 amended: a compound assignment `x op= e` with both values numeric
reads the old value of `x` through the parent chain, but stores the
combined value via env_set on the CURRENT frame only: when `x` has no slot
in the current frame, a fresh non-const untyped slot is appended there and
the parent frame's slot is left untouched. -/
theorem c4_amended (lm : LibM) (f : Nat) (name : String) (pb cb : List Binding)
    (b : Binding) (old n : ℚ) (op : AssignOp) (fc : ℚ → ℚ → ℚ)
    (hop : compoundCombine op = some fc)
    (hcb : frameFind cb name = none)
    (hpb : frameFind pb name = some b)
    (hbv : b.value = .num old) :
    evalNode lm (f+2) (twoFrameState pb cb) (.assign op name none (.number n))
      = (twoFrameState pb (cb ++ [⟨name, .num (fc old n), false, none⟩]), .val .null) := by
  cases op <;> simp [compoundCombine] at hop <;> subst hop <;>
    simp [evalNode, compoundValue, envGet, envGetAux, twoFrameState, hcb, hpb, hbv,
      envSetAt, modifyFrame, frameSet_of_not_found, errEmit]

/-- C4 amended, witness: the `+=` instance at `x` with parent slot 1 and
right-hand side 2; the current frame gains `x = 3`. -/
theorem c4_amended_witness :
    evalNode libm0 5 (twoFrameState [⟨"x", .num 1, false, none⟩] [])
        (.assign .plusAssign "x" none (.number 2))
      = (twoFrameState [⟨"x", .num 1, false, none⟩]
           [⟨"x", .num ((1 : ℚ) + 2), false, none⟩], .val .null) :=
  c4_amended libm0 3 "x" [⟨"x", .num 1, false, none⟩] [] ⟨"x", .num 1, false, none⟩
    1 2 .plusAssign (fun a b => a + b) (by simp [compoundCombine]) (by simp [frameFind])
    (by simp [frameFind]) rfl

/-- C6: try/catch/finally semantics.  First conjunct: if the try body
throws, the error is env_set under the catch variable in the current frame,
the catch body's value is the statement's result, and the finally body runs
afterwards with its value discarded.  Second conjunct: on success the
statement's result is the try body's value, with the finally body run and
discarded.  Third and fourth conjuncts: system.throw builds the error Value
from its arguments with the defaults "Error"/""/0 for missing ones.  Last
conjunct: the spec's scenario `try { system.throw("E","m",7) } catch(e) { e }`
yields the error Value `<E: m>` (code 7), whose displayed form is "<E: m>". -/
theorem c6_try_catch_finally :
    (∀ (lm : LibM) (f : Nat) (st st1 st2 st3 : InterpState) (tryB cb fb : ASTNode)
        (ev : String) (e cv fv : Value),
      evalNode lm (f+2) st tryB = (st1, .thrown e) →
      evalNode lm (f+1) (envSetAt st1 st1.current ev e) cb = (st2, .val cv) →
      evalNode lm f st2 fb = (st3, .val fv) →
      evalNode lm (f+3) st (.tryCatch tryB (some ev) (some cb) (some fb))
        = (st3, .val cv))
    ∧ (∀ (lm : LibM) (f : Nat) (st st1 st3 : InterpState) (tryB fb : ASTNode)
        (errVar : Option String) (catchB : Option ASTNode) (v fv : Value),
      evalNode lm (f+2) st tryB = (st1, .val v) →
      evalNode lm f st1 fb = (st3, .val fv) →
      evalNode lm (f+3) st (.tryCatch tryB errVar catchB (some fb)) = (st3, .val v))
    ∧ (∀ (lm : LibM) (st : InterpState) (nm : String),
      evalNode lm 5 st (.call "system.throw" [.str nm]) = (st, .thrown (.err nm "" 0)))
    ∧ (∀ (lm : LibM) (st : InterpState) (nm ms : String) (q : ℚ),
      evalNode lm 5 st (.call "system.throw" [.str nm, .str ms, .number q])
        = (st, .thrown (.err nm ms (qtrunc q))))
    ∧ (interpreterEval libm0 10 initState progThrowCatch).2 = .val (.err "E" "m" 7)
    ∧ valueDisplay (.err "E" "m" 7) = "<E: m>" := by
  refine ⟨?_, ?_, ?_, ?_, ?_, ?_⟩
  · intro lm f st st1 st2 st3 tryB cb fb ev e cv fv h1 h2 h3
    show (match evalNode lm (f+2) st tryB with
          | (s, r) => evalTryAfter lm (f+2) s (some ev) (some cb) (some fb) .null r)
        = (st3, .val cv)
    rw [h1]
    simp only [evalTryAfter, evalFinallyStage, h2, h3]
  · intro lm f st st1 st3 tryB fb errVar catchB v fv h1 h3
    show (match evalNode lm (f+2) st tryB with
          | (s, r) => evalTryAfter lm (f+2) s errVar catchB (some fb) .null r)
        = (st3, .val v)
    rw [h1]
    simp only [evalTryAfter, evalFinallyStage, h3]
  · intro lm st nm
    simp [evalNode, evalBuiltin, builtinNames]
  · intro lm st nm ms q
    simp [evalNode, evalBuiltin, builtinNames]
  · simp [progThrowCatch, interpreterEval, evalNode, evalStmts, evalBuiltin, evalTryAfter,
          evalFinallyStage, builtinNames, envGet, envGetAux, initState, frameFind,
          envSetAt, modifyFrame, frameSet, errEmit, qtrunc]
  · simp [valueDisplay]

/-- C6 witness: the general thrown-path conjunct applied to the concrete
statement `try { system.throw("X") } catch(e) { 1 } finally { 2 }`: the
result is the catch body's value 1, in the state where `e` was bound. -/
theorem c6_try_catch_finally_witness :
    evalNode libm0 5 initState
        (.tryCatch (.call "system.throw" [.str "X"]) (some "e") (some (.number 1))
          (some (.number 2)))
      = (envSetAt initState 0 "e" (.err "X" "" 0), .val (.num 1)) := by
  have h := c6_try_catch_finally.1 libm0 2 initState initState
    (envSetAt initState 0 "e" (.err "X" "" 0)) (envSetAt initState 0 "e" (.err "X" "" 0))
    (.call "system.throw" [.str "X"]) (.number 1) (.number 2) "e"
    (.err "X" "" 0) (.num 1) (.num 2)
    (by simp [evalNode, evalBuiltin, builtinNames])
    (by simp [evalNode, initState, envSetAt, modifyFrame, frameSet, errEmit])
    (by simp [evalNode])
  simpa [initState, envSetAt, modifyFrame, frameSet, errEmit] using h

/-- The AST_MATCH scan over literal cases: with enough fuel, the scan
selects the first pair whose value equals the scrutinee under
`valuesEqual`, evaluating its body with the fuel left at that position;
with no hit, the default body or null. -/
theorem matchCases_lit (lm : LibM) :
    ∀ (pairs : List (Value × ASTNode)) (F : Nat) (st : InterpState) (mv : Value)
      (dflt : Option ASTNode),
    (∀ p ∈ pairs, isPrim p.1 = true) →
    pairs.length + 1 ≤ F →
    evalMatchCases lm F st mv (pairs.map fun p => litNode p.1) (pairs.map Prod.snd) dflt
      = match firstMatch mv pairs with
        | some (i, b) => evalNode lm (F - 1 - i) st b
        | none =>
          match dflt with
          | some d => evalNode lm (F - 1 - pairs.length) st d
          | none => (st, .val .null) := by
  intro pairs
  induction pairs with
  | nil =>
    intro F st mv dflt hprim hF
    obtain ⟨F1, rfl⟩ : ∃ F1, F = F1 + 1 := ⟨F - 1, by omega⟩
    cases dflt <;> simp [evalMatchCases, firstMatch]
  | cons p rest ih =>
    intro F st mv dflt hprim hF
    obtain ⟨cv, b⟩ := p
    simp only [List.length_cons] at hF
    obtain ⟨F1, rfl⟩ : ∃ F1, F = F1 + 1 := ⟨F - 1, by omega⟩
    have hprimc : isPrim cv = true := hprim (cv, b) (by simp)
    have hrest : ∀ q ∈ rest, isPrim q.1 = true := fun q hq => hprim q (by simp [hq])
    have hF1 : rest.length + 1 ≤ F1 := by omega
    obtain ⟨F2, rfl⟩ : ∃ F2, F1 = F2 + 1 := ⟨F1 - 1, by omega⟩
    simp only [List.map_cons, evalMatchCases, litNode_eval lm F2 st cv hprimc]
    by_cases hm : valuesEqual mv cv = true
    · simp [hm, firstMatch]
    · simp only [Bool.not_eq_true] at hm
      simp only [hm, Bool.false_eq_true, if_false, firstMatch]
      rw [ih (F2 + 1) st mv dflt hrest hF1]
      cases hfm : firstMatch mv rest with
      | none =>
        cases dflt with
        | none => simp
        | some d =>
          have harith : F2 + 1 - 1 - rest.length = F2 + 1 + 1 - 1 - (rest.length + 1) := by
            omega
          simp [harith]
      | some ib =>
        obtain ⟨i, b2⟩ := ib
        have harith : F2 + 1 - 1 - i = F2 + 1 + 1 - 1 - (i + 1) := by omega
        simp [harith]

/-- C7 counterexample: the claim says match uses the same equality rule as
`==`, under which two nulls are never equal — so `match (null) { case null:
1 default: 2 }` would take the default and yield 2.  The code's match uses
values_equal, under which two nulls ARE equal: the statement yields the
case body's value 1. -/
theorem c7_counterexample :
    (interpreterEval libm0 10 initState progMatchNull).2 = .val (.num 1)
    ∧ specEqRule .null .null = false
    ∧ valuesEqual .null .null = true
    ∧ Value.num 1 ≠ Value.num 2 := by
  refine ⟨?_, rfl, rfl, by simp⟩
  simp [progMatchNull, interpreterEval, evalNode, evalMatchCases, valuesEqual]

/-- C7 amended: the scrutinee is evaluated exactly once; cases are
evaluated and tested in source order using `values_equal` — which agrees
with the `==` rule on numbers, strings and booleans, EXCEPT that two nulls
compare equal (second and third conjuncts; arrays, maps and functions
compare by pointer identity, always false between two fresh evaluation
results, as the catch-all of `valuesEqual` reflects).  The first matching
case's body is evaluated and is the result; otherwise the default body,
when present, and otherwise null (first conjunct, for literal case lists). -/
theorem c7_amended :
    (∀ (lm : LibM) (f : Nat) (st st1 : InterpState) (e : ASTNode) (mv : Value)
        (pairs : List (Value × ASTNode)) (dflt : Option ASTNode),
      (∀ p ∈ pairs, isPrim p.1 = true) →
      evalNode lm (f + pairs.length + 1) st e = (st1, .val mv) →
      pairs.length + 1 ≤ f →
      evalNode lm (f + pairs.length + 2) st
          (.matchStmt e (pairs.map fun p => litNode p.1) (pairs.map Prod.snd) dflt)
        = match firstMatch mv pairs with
          | some (i, b) => evalNode lm (f + pairs.length - i) st1 b
          | none =>
            match dflt with
            | some d => evalNode lm f st1 d
            | none => (st1, .val .null))
    ∧ (∀ v w : Value, valuesEqual v w
        = match v, w with
          | .null, .null => true
          | _, _ => specEqRule v w)
    ∧ valuesEqual .null .null = true := by
  refine ⟨?_, ?_, rfl⟩
  · intro lm f st st1 e mv pairs dflt hprim hscrut hf
    show (match evalNode lm (f + pairs.length + 1) st e with
          | (s, .val mv) =>
            evalMatchCases lm (f + pairs.length + 1) s mv
              (pairs.map fun (p : Value × ASTNode) => litNode p.1)
              (pairs.map Prod.snd) dflt
          | other => other)
        = _
    rw [hscrut]
    show evalMatchCases lm (f + pairs.length + 1) st1 mv
        (pairs.map fun (p : Value × ASTNode) => litNode p.1) (pairs.map Prod.snd) dflt = _
    rw [matchCases_lit lm pairs (f + pairs.length + 1) st1 mv dflt hprim (by omega)]
    cases hfm : firstMatch mv pairs with
    | none =>
      cases dflt with
      | none => simp
      | some d =>
        have harith : f + pairs.length + 1 - 1 - pairs.length = f := by omega
        simp [harith]
    | some ib =>
      obtain ⟨i, b2⟩ := ib
      have harith : f + pairs.length + 1 - 1 - i = f + pairs.length - i := by omega
      simp [harith]
  · intro v w
    cases v <;> cases w <;> simp [valuesEqual, specEqRule]

/-- C7 amended, witness: the spec's own match scenario at scrutinee 7 —
`match (7) { case 1: "one" case 7: "seven" default: "other" }` selects the
second case and yields "seven". -/
theorem c7_amended_witness :
    evalNode libm0 7 initState
        (.matchStmt (.number 7)
          ([((.num 1 : Value), (.str "one" : ASTNode)), (.num 7, .str "seven")].map
            fun p => litNode p.1)
          ([((.num 1 : Value), (.str "one" : ASTNode)), (.num 7, .str "seven")].map
            Prod.snd)
          (some (.str "other")))
      = (initState, .val (.str "seven")) := by
  have h := c7_amended.1 libm0 3 initState initState (.number 7) (.num 7)
    [(.num 1, .str "one"), (.num 7, .str "seven")] (some (.str "other"))
    (by decide)
    (by simp [evalNode]) (by decide)
  simpa [firstMatch, valuesEqual, evalNode] using h

/-- C8 counterexample: `system.type` applied to a map value returns the
string "null", not "map" — its inline switch has no VAL_MAP arm — while the
declaration-time type-name function does map VAL_MAP to "map", so the two
functions differ, contrary to the claim. -/
theorem c8_counterexample :
    (interpreterEval libm0 5 (globalState [⟨"x", .map [("a", .num 1)], false, none⟩])
        (.call "system.type" [.identifier "x"])).2 = .val (.str "null")
    ∧ typeName (.map [("a", .num 1)]) = "map"
    ∧ "null" ≠ "map" := by
  refine ⟨?_, rfl, by decide⟩
  simp [interpreterEval, evalNode, evalBuiltin, builtinNames, envGet, envGetAux,
        globalState, frameFind, builtinTypeName]

/-- C8 amended: `system.type(v)` returns the string computed by the
builtin's own inline switch `builtinTypeName` (first conjunct), which is a
smaller table than the declaration-check `typeName`: the two agree on
numbers, strings, booleans, arrays, functions and null, but `system.type`
maps a map value (and an error value) to "null" whereas `typeName` maps a
map to "map" (remaining conjuncts). -/
theorem c8_amended :
    (∀ (lm : LibM) (f : Nat) (st : InterpState) (x : String) (v : Value),
      envGet st st.current x = some v →
      evalNode lm (f+3) st (.call "system.type" [.identifier x])
        = (st, .val (.str (builtinTypeName v))))
    ∧ (∀ n : ℚ, builtinTypeName (.num n) = typeName (.num n))
    ∧ (∀ s, builtinTypeName (.str s) = typeName (.str s))
    ∧ (∀ b, builtinTypeName (.boolean b) = typeName (.boolean b))
    ∧ (∀ vs, builtinTypeName (.arr vs) = typeName (.arr vs))
    ∧ (∀ fn clo, builtinTypeName (.func fn clo) = typeName (.func fn clo))
    ∧ builtinTypeName .null = typeName .null
    ∧ (∀ es, builtinTypeName (.map es) = "null" ∧ typeName (.map es) = "map")
    ∧ (∀ nm ms c, builtinTypeName (.err nm ms c) = "null") := by
  refine ⟨?_, fun _ => rfl, fun _ => rfl, fun _ => rfl, fun _ => rfl,
    fun _ _ => rfl, rfl, fun _ => ⟨rfl, rfl⟩, fun _ _ _ => rfl⟩
  intro lm f st x v hg
  simp [evalNode, evalBuiltin, builtinNames, hg]

/-- C8 amended, witness: `system.type` on a binding holding a map value
yields the string "null". -/
theorem c8_amended_witness :
    evalNode libm0 8 (globalState [⟨"x", .map [("a", .num 1)], false, none⟩])
        (.call "system.type" [.identifier "x"])
      = (globalState [⟨"x", .map [("a", .num 1)], false, none⟩], .val (.str "null")) := by
  have h := c8_amended.1 libm0 5 (globalState [⟨"x", .map [("a", .num 1)], false, none⟩])
    "x" (.map [("a", .num 1)]) (by simp [envGet, envGetAux, globalState, frameFind])
  simpa [builtinTypeName] using h

/-- C9: for `a && b` and `a || b` both operands are evaluated, left first
then right — the final state is the one after BOTH evaluations, so the
right operand's side effects always occur — and the result is a fresh
boolean combining the operands' truthiness (first conjunct), where
truthiness follows the spec's table: null false, booleans themselves,
numbers true iff non-zero, strings true iff non-empty, all else true
(second conjunct). -/
theorem c9_logical_ops :
    (∀ (lm : LibM) (f : Nat) (st st1 st2 : InterpState) (a b : ASTNode) (va vb : Value),
      evalNode lm f st a = (st1, .val va) →
      evalNode lm f st1 b = (st2, .val vb) →
      evalNode lm (f+1) st (.binaryOp .land a b)
          = (st2, .val (.boolean (specTruthy va && specTruthy vb)))
        ∧ evalNode lm (f+1) st (.binaryOp .lor a b)
          = (st2, .val (.boolean (specTruthy va || specTruthy vb))))
    ∧ (∀ v, valueIsTruthy v = specTruthy v) := by
  have ht : ∀ v, valueIsTruthy v = specTruthy v := by
    intro v
    cases v with
    | num n =>
      simp only [valueIsTruthy, specTruthy, bne, ne_eq, decide_not]
      by_cases h : n = 0 <;> simp [h]
    | str s =>
      simp only [valueIsTruthy, specTruthy]
      rcases s with ⟨data⟩
      cases data <;> simp [String.length, ne_eq, String.ext_iff]
    | _ => simp [valueIsTruthy, specTruthy]
  constructor
  · intro lm f st st1 st2 a b va vb h1 h2
    constructor <;> simp [evalNode, h1, h2, binop, ht]
  · exact ht

/-- C9 witness: `system.print("L") && system.print("R")` — the trace shows
both prints happened, left first, and the result is the fresh boolean
false (null is falsy). -/
theorem c9_logical_ops_witness :
    evalNode libm0 10 initState
        (.binaryOp .land (.call "system.print" [.str "L"]) (.call "system.print" [.str "R"]))
      = ({ initState with trace := [.outValue (.str "L"), .outText "\n",
            .outValue (.str "R"), .outText "\n"] }, .val (.boolean false)) := by
  have h := (c9_logical_ops.1 libm0 9 initState
    { initState with trace := [.outValue (.str "L"), .outText "\n"] }
    { initState with trace := [.outValue (.str "L"), .outText "\n",
        .outValue (.str "R"), .outText "\n"] }
    (.call "system.print" [.str "L"]) (.call "system.print" [.str "R"]) .null .null
    (by simp [evalNode, evalBuiltin, evalPrintArgs, builtinNames, outEmitV, outEmit, initState])
    (by simp [evalNode, evalBuiltin, evalPrintArgs, builtinNames, outEmitV, outEmit, initState])).1
  simpa [specTruthy] using h

/-- C10: every index expression is total — once target and index have
evaluated, the result is always a normal Value given by the selection rule
`indexSpecValue` (first conjunct): a copy of the array element when the
target is an array and the number index truncates into range, null in every
other case — maps cannot be indexed (second conjunct), non-numeric indices
yield null (third), out-of-range or negative indices yield null (fourth),
and an in-range index selects the element (fifth). -/
theorem c10_index_total :
    (∀ (lm : LibM) (f : Nat) (st st1 st2 : InterpState) (e1 e2 : ASTNode) (v1 v2 : Value),
      evalNode lm f st e1 = (st1, .val v1) →
      evalNode lm f st1 e2 = (st2, .val v2) →
      evalNode lm (f+1) st (.indexExpr e1 e2) = (st2, .val (indexSpecValue v1 v2)))
    ∧ (∀ entries idx, indexSpecValue (.map entries) idx = .null)
    ∧ (∀ elems s, indexSpecValue (.arr elems) (.str s) = .null)
    ∧ (∀ elems (n : ℚ), qtrunc n < 0 ∨ elems.length ≤ (qtrunc n).toNat →
        indexSpecValue (.arr elems) (.num n) = .null)
    ∧ (∀ elems (n : ℚ) v, 0 ≤ qtrunc n → elems[(qtrunc n).toNat]? = some v →
        indexSpecValue (.arr elems) (.num n) = v) := by
  refine ⟨?_, ?_, fun _ _ => rfl, ?_, ?_⟩
  · intro lm f st st1 st2 e1 e2 v1 v2 h1 h2
    simp only [evalNode, h1, h2]
    cases v1 <;> cases v2 <;> simp only [indexSpecValue]
    case arr.num =>
      rename_i elems n
      split_ifs with h0
      · rcases hx : elems[(qtrunc n).toNat]? with _ | v <;> simp [hx]
      · rfl
  · intro entries idx
    cases idx <;> rfl
  · intro elems n h
    rcases h with h | h
    · simp [indexSpecValue, not_le.mpr h]
    · simp [indexSpecValue, List.getElem?_eq_none h]
  · intro elems n v h0 hsome
    simp [indexSpecValue, h0, hsome]

/-- C10 witness: `[5, 6][1]` selects 6; `[5, 6][7]` and `[5, 6]["k"]` and
indexing a map all yield null. -/
theorem c10_index_total_witness :
    evalNode libm0 4 (globalState [⟨"a", .arr [.num 5, .num 6], false, none⟩])
        (.indexExpr (.identifier "a") (.number 1))
      = (globalState [⟨"a", .arr [.num 5, .num 6], false, none⟩], .val (.num 6))
    ∧ indexSpecValue (.arr [.num 5, .num 6]) (.num 7) = .null
    ∧ indexSpecValue (.arr [.num 5, .num 6]) (.str "k") = .null
    ∧ indexSpecValue (.map [("a", .num 1)]) (.num 0) = .null := by
  refine ⟨?_, ?_, c10_index_total.2.2.1 [.num 5, .num 6] "k",
    c10_index_total.2.1 [("a", .num 1)] (.num 0)⟩
  · have h := c10_index_total.1 libm0 3
      (globalState [⟨"a", .arr [.num 5, .num 6], false, none⟩])
      (globalState [⟨"a", .arr [.num 5, .num 6], false, none⟩])
      (globalState [⟨"a", .arr [.num 5, .num 6], false, none⟩])
      (.identifier "a") (.number 1) (.arr [.num 5, .num 6]) (.num 1)
      (by simp [evalNode, envGet, envGetAux, globalState, frameFind])
      (by simp [evalNode])
    simpa [indexSpecValue, qtrunc] using h
  · exact c10_index_total.2.2.2.1 [.num 5, .num 6] 7 (by right; norm_num [qtrunc])

/-- C1 amended, witness: the caller-frame default at `k = 5` gives
`f(1) = 6`. -/
theorem c1_amended_witness :
    (interpreterEval libm0 30 initState (progDefaultCaller 5)).2 = .val (.num (1 + 5)) :=
  c1_amended.1 5

/-- C5 witness: the docs_get topic table at concrete guide contents. -/
theorem c5_help_never_dispatched_witness :
    docsGet [("../../docs/USER_GUIDE.md", "U"), ("../../docs/DEVELOPER_GUIDE.md", "D")]
        "user" = "U" :=
  (c5_help_never_dispatched.2.2.2.1 "U" "D").1
